import Mathlib

/-!
Verification of the book-cataloging core: a shallow embedding of the
spreadsheet-backed record store (`src/lib/sheets.ts`), the search
aggregator and its deduplication, the cover-image URL resolver, the
ISBN-13 to ISBN-10 conversion, and the image rehosting fallback chain
(`src/lib/uploadUtils.ts`), together with theorems settling the stated
behavioral properties.

JavaScript strings are modeled as Lean `String` (reasoning is done on
`List Char` via `toList`). JavaScript `undefined`/`null` for string
fields is `Option String` (`none`). Numbers that can become `NaN`
(`parseInt` on a non-digit) are `Option Nat` with `none` for `NaN`.
Asynchronous I/O collaborators (HTTP fetch, file storage, the
spreadsheet API) are modeled as explicit oracle environments passed to
the embedded functions; a thrown exception is `Except.error`, and a
JavaScript `try`/`catch` is an explicit match on that `Except`.
-/

namespace BookLib

/-- JS truthiness of a possibly-undefined string: `undefined`, `null`
and the empty string are falsy. -/
def truthy : Option String → Bool
  | none => false
  | some s => s != ""

/-- JS `a || ""` on a possibly-undefined string. -/
def orEmpty (o : Option String) : String := o.getD ""

/-- JS template interpolation of a possibly-null string (`null` prints
as the four characters `null`). -/
def jsStr : Option String → String
  | none => "null"
  | some s => s

/-- JS `x || undefined`: collapses `null` and the empty string to
`undefined`. -/
def orUndef (o : Option String) : Option String :=
  if truthy o then o else none

/-- The character-list body of JS `String.prototype.trim`: drop leading
and trailing whitespace. -/
def trimChars (l : List Char) : List Char :=
  ((l.dropWhile Char.isWhitespace).reverse.dropWhile Char.isWhitespace).reverse

/-- JS `s.trim()`. -/
def jsTrim (s : String) : String := String.mk (trimChars s.toList)

/-- JS `s.startsWith(pre)` (character-list comparison, so that concrete
instances reduce). -/
def jsStartsWith (s pre : String) : Bool :=
  s.toList.take pre.toList.length == pre.toList

/-- JS `parseInt` applied to a single character: a decimal digit maps to
its value, anything else to `NaN` (`none`). -/
def parseIntDigit (c : Char) : Option Nat :=
  if c.isDigit then some (c.toNat - 48) else none

/-- The checksum loop of `convertToIsbn10` (`sheets.ts`):
`checksum += parseInt(isbn9[i]) * (10 - i)`; a `NaN` produced by
`parseInt` poisons the whole sum. -/
def isbnChecksum : List Char → Nat → Option Nat
  | [], _ => some 0
  | c :: cs, i =>
    match parseIntDigit c, isbnChecksum cs (i + 1) with
    | some d, some rest => some (d * (10 - i) + rest)
    | _, _ => none

/-- `convertToIsbn10` from `src/lib/sheets.ts`: rejects inputs that are
not exactly 13 characters starting with "978"; otherwise takes the nine
characters after the prefix, computes the weighted checksum, and appends
the check digit (`"X"` for 10). When the checksum is `NaN` the JS code
renders the check digit as the string `"NaN"`. -/
def convertToIsbn10 (isbn13 : String) : Option String :=
  if isbn13.length != 13 || !jsStartsWith isbn13 "978" then
    none
  else
    let isbn9 := (isbn13.toList.drop 3).take 9
    match isbnChecksum isbn9 0 with
    | some n =>
      let check := (11 - n % 11) % 11
      let checkDigit := if check == 10 then "X" else toString check
      some (String.mk isbn9 ++ checkDigit)
    | none => some (String.mk isbn9 ++ "NaN")

/-- Decimal value of a digit character. -/
def digitVal (c : Char) : Nat := c.toNat - 48

/-- The weighted checksum of the claim, written over the enumerated
digit list: the sum of `digit * (10 - position)`. -/
def specWeightedSum (l : List (Nat × Char)) : Nat :=
  (l.map (fun p => digitVal p.2 * (10 - p.1))).sum

/-! ## Record store adapter (`src/lib/sheets.ts`)

The backing spreadsheet is a list of rows, each row a list of cell
strings; the first row is the header. A cell read past the end of a row
is JS `undefined`; the row-to-object mapping in `getBooks` turns it into
the empty string via `row[j] || ""`. `Date.now().toString(36)` and the
random suffix of `generateBookId` are passed in as explicit `ts`/`rand`
parameters; the per-row generator used by `getBooks` for legacy rows is
an oracle `gen : Nat -> String` from the row offset. -/

/-- Lower-casing by character, embedding JS `toLowerCase` for the ASCII
headers this code compares. -/
def lowerStr (s : String) : String := String.mk (s.toList.map Char.toLower)

/-- JS `isbn.replace(/[^\d]/g, "")`. -/
def digitsOnly (s : String) : String := String.mk (s.toList.filter Char.isDigit)

/-- JS regex `\w`: letters, digits, underscore. -/
def isWordChar (c : Char) : Bool := c.isAlphanum || c == '_'

/-- Replace each maximal whitespace run with a single hyphen
(JS `.replace(/\s+/g, "-")`); the flag records whether the previous
character was whitespace. -/
def squashWsAux : Bool → List Char → List Char
  | _, [] => []
  | prevWs, c :: cs =>
    if c.isWhitespace then
      (if prevWs then [] else ['-']) ++ squashWsAux true cs
    else c :: squashWsAux false cs

/-- Collapse each maximal hyphen run to a single hyphen
(the JS replace of one-or-more hyphens by a single hyphen). -/
def collapseDashAux : Bool → List Char → List Char
  | _, [] => []
  | prevDash, c :: cs =>
    if c == '-' then
      (if prevDash then [] else ['-']) ++ collapseDashAux true cs
    else c :: collapseDashAux false cs

/-- `createSlug` from `sheets.ts`: lowercase, strip characters outside
`\w`, whitespace and hyphen, squash whitespace to hyphens, collapse
hyphen runs, trim. -/
def createSlug (text : String) : String :=
  jsTrim (String.mk (collapseDashAux false (squashWsAux false
    ((lowerStr text).toList.filter
      (fun c => isWordChar c || c.isWhitespace || c == '-')))))

/-- JS `s.substring(0, n)`. -/
def strTake (s : String) (n : Nat) : String := String.mk (s.toList.take n)

/-- `generateBookId` from `sheets.ts`, with the base36 timestamp and the
6-character random suffix as parameters. -/
def generateBookId (isbn title author : Option String) (ts rand : String) :
    String :=
  let uniquePart :=
    if truthy isbn then digitsOnly (orEmpty isbn)
    else if truthy title && truthy author then
      strTake (createSlug (orEmpty title)) 10 ++ "-" ++
        strTake (createSlug (orEmpty author)) 10
    else ""
  if uniquePart != "" then uniquePart ++ "-" ++ ts ++ "-" ++ rand
  else "book-" ++ ts ++ "-" ++ rand

/-- `row[j] || ""`: a missing cell or an empty cell reads as "". -/
def cellOr (row : List String) (j : Nat) : String := (row.get? j).getD ""

/-- The JS object built by `headers.forEach((h, j) => book[h] = row[j] || "")`,
kept as the assignment list in header order; a later duplicate header
overwrites an earlier one at lookup time. -/
def mkFields (headers row : List String) : List (String × String) :=
  headers.enum.map (fun p => (p.2, cellOr row p.1))

/-- Property lookup on the built object: the last assignment to the key
wins; a key never assigned is `undefined`. -/
def objGet (fields : List (String × String)) (k : String) : Option String :=
  ((fields.filter (fun p => p.1 == k)).getLast?).map (fun p => p.2)

/-- The row-keeping test of `getBooks`:
`book.title && book.title.trim() !== ""` (and the same for author). -/
def nonBlankStr : Option String → Bool
  | none => false
  | some s => s != "" && jsTrim s != ""

/-- The legacy-id test of `getBooks`: `!book.id || book.id.trim() === ""`. -/
def idMissing : Option String → Bool
  | none => true
  | some s => s == "" || jsTrim s == ""

/-- A book object yielded by `getBooks`: the mapped fields (after the
legacy id fill-in), the effective `book.id`, and `_sheetRowIndex`. -/
structure PBook where
  fields : List (String × String)
  id : String
  rowIndex : Nat
deriving DecidableEq, Repr

/-- The body of the `rows.slice(1).forEach((row, i) => ...)` loop of
`getBooks`: keep non-blank rows, filling in a generated id (from the
oracle `gen`, indexed by the loop offset) when the id is missing. -/
def parseRows (gen : Nat → String) (headers : List String) :
    Nat → List (List String) → List PBook
  | _, [] => []
  | i, row :: rest =>
    let fields := mkFields headers row
    if nonBlankStr (objGet fields "title") &&
        nonBlankStr (objGet fields "author") then
      let id0 := objGet fields "id"
      let theId := if idMissing id0 then gen i else orEmpty id0
      let fields2 :=
        if idMissing id0 then fields ++ [("id", gen i)] else fields
      ⟨fields2, theId, i + 2⟩ :: parseRows gen headers (i + 1) rest
    else parseRows gen headers (i + 1) rest

/-- `getBooks` from `sheets.ts` (the id-aware version): header row plus
mapped data rows. -/
def getBooksGen (gen : Nat → String) (rows : List (List String)) :
    List PBook :=
  match rows with
  | [] => []
  | headers :: dataRows => parseRows gen headers 0 dataRows

/-- The value space of the `forsale` field of an incoming book object
(TS type `boolean | string | null`, or the field absent). -/
inductive JsBoolStr where
  | absent
  | bool (b : Bool)
  | str (s : String)
deriving DecidableEq, Repr

/-- An incoming book object (the `Book` TS type of `sheets.ts`); string
fields are `none` when absent or null. -/
structure BookInput where
  id : Option String := none
  isbn : Option String := none
  title : Option String := none
  author : Option String := none
  type : Option String := none
  coverUrl : Option String := none
  notes : Option String := none
  price : Option String := none
  publisher : Option String := none
  year : Option String := none
  url : Option String := none
  edition : Option String := none
  language : Option String := none
  sellingprice : Option String := none
  forsale : JsBoolStr := .absent
deriving DecidableEq, Repr

/-- `book.forsale !== false ? "TRUE" : "FALSE"` — the persisted cell for
the `forsale` column in `addBookWithId` and `updateBookById`. -/
def forsaleCell : JsBoolStr → String
  | .bool false => "FALSE"
  | _ => "TRUE"

/-- The full-row value array written by `updateBookById` (fixed column
order). -/
def updateValues (b : BookInput) : List String :=
  [orEmpty b.id, orEmpty b.isbn, orEmpty b.title, orEmpty b.author,
   orEmpty b.type, orEmpty b.publisher, orEmpty b.year, orEmpty b.edition,
   orEmpty b.coverUrl, orEmpty b.notes, orEmpty b.price, orEmpty b.url,
   orEmpty b.language, orEmpty b.sellingprice, forsaleCell b.forsale]

/-- The row appended by `addBookWithId` (fixed column order, generated
id first). -/
def addValues (theId : String) (b : BookInput) : List String :=
  [theId, orEmpty b.isbn, orEmpty b.title, orEmpty b.author,
   orEmpty b.type, orEmpty b.publisher, orEmpty b.year, orEmpty b.edition,
   orEmpty b.coverUrl, orEmpty b.notes, orEmpty b.price, orEmpty b.url,
   orEmpty b.language, orEmpty b.sellingprice, forsaleCell b.forsale]

/-- The header row `addBookWithId` writes into an empty sheet. -/
def canonHeaders : List String :=
  ["id", "isbn", "title", "author", "type", "publisher", "year", "edition",
   "coverUrl", "notes", "price", "url", "language", "sellingprice",
   "forsale"]

/-- A values-range update at a 0-based row offset: overwrite the leading
cells with the written values, keep trailing cells, extend the grid if
the row does not exist yet. -/
def setRowAt (rows : List (List String)) (r0 : Nat) (vals : List String) :
    List (List String) :=
  if r0 < rows.length then
    rows.set r0 (vals ++ (rows.getD r0 []).drop vals.length)
  else
    rows ++ List.replicate (r0 - rows.length) [] ++ [vals]

/-- `updateBook` from `sheets.ts`: writes the value row at range
`A(rowIndex+1):O(rowIndex+1)`, i.e. 0-based row offset `rowIndex`. -/
def updateBook (rows : List (List String)) (rowIndex : Nat)
    (values : List String) : List (List String) :=
  setRowAt rows rowIndex values

/-- `updateBookById` from `sheets.ts`: find the book through `getBooks`,
then write the full value row at the row position derived from the
position in the *filtered* book list. -/
def updateBookById (gen : Nat → String) (rows : List (List String))
    (bookId : String) (bookData : BookInput) :
    Except String (List (List String)) :=
  match (getBooksGen gen rows).findIdx? (fun b => b.id == bookId) with
  | none => .error ("Book with ID " ++ bookId ++ " not found")
  | some bookIndex =>
    .ok (updateBook rows (bookIndex + 1) (updateValues bookData))

/-- The row-scanning loop of `deleteBookById`: the first index `i`
(counting from the given start) whose row has the id-column cell
strictly equal (`===`) to the id; a missing cell is `undefined` and
never equal to a string. -/
def findRowIdx (idCol : Nat) (bookId : String) :
    Nat → List (List String) → Option Nat
  | _, [] => none
  | i, r :: rest =>
    if r.get? idCol == some bookId then some i
    else findRowIdx idCol bookId (i + 1) rest

/-- `deleteBookById` from `sheets.ts`: scan the raw rows (from offset 1)
for the first row whose id-column cell is strictly equal to the id, and
delete exactly that row. -/
def deleteBookById (rows : List (List String)) (bookId : String) :
    Except String (List (List String)) :=
  if rows.length = 0 then .error "Sheet is empty"
  else
    match (rows.headD []).findIdx? (fun h => lowerStr h == "id") with
    | none => .error "ID column not found in sheet"
    | some idColumnIndex =>
      match findRowIdx idColumnIndex bookId 1 (rows.drop 1) with
      | none => .error ("Book with ID " ++ bookId ++ " not found")
      | some i => .ok (rows.eraseIdx i)

/-- Result of `addBookWithId`: the new sheet contents and the returned
book object. -/
structure AddResult where
  rows : List (List String)
  book : BookInput
deriving DecidableEq, Repr

/-- `addBookWithId` from `sheets.ts`: ensure an id column exists (write
the canonical header into an empty sheet; insert a leading id column
otherwise), assign an id via `generateBookId` when absent, append one
row in fixed column order, and return the book object with its id. -/
def addBookWithId (rows : List (List String)) (book : BookInput)
    (ts rand : String) : AddResult :=
  let headers := rows.headD []
  let theId :=
    if truthy book.id then orEmpty book.id
    else generateBookId (orUndef book.isbn) (orUndef book.title)
      (orUndef book.author) ts rand
  let bookWithId := { book with id := some theId }
  let rows1 :=
    match headers.findIdx? (fun h => lowerStr h == "id") with
    | some _ => rows
    | none =>
      if headers.length = 0 then
        setRowAt rows 0 canonHeaders
      else
        match rows.map (fun r => "" :: r) with
        | [] => [["id"]]
        | r0 :: rest => ("id" :: r0.tail) :: rest
  ⟨rows1 ++ [addValues theId bookWithId], bookWithId⟩

/-- A data row (under the canonical header) that the listing keeps and
that carries its own id: non-blank title (column 2), author (column 3)
and id (column 0). -/
def goodRow (r : List String) : Prop :=
  nonBlankStr (some (cellOr r 2)) = true ∧
  nonBlankStr (some (cellOr r 3)) = true ∧
  idMissing (some (cellOr r 0)) = false

instance (r : List String) : Decidable (goodRow r) := by
  unfold goodRow; infer_instance

/-- The book object produced for a kept canonical-header row that
carries its own id, at data offset `i`. -/
def rowBook (i : Nat) (r : List String) : PBook :=
  ⟨mkFields canonHeaders r, cellOr r 0, i + 2⟩

/-! Fixtures for the concrete counterexamples and witnesses. -/

/-- A fixed id generator for concrete sheets whose rows all carry ids
(never consulted on such sheets). -/
def genFresh : Nat → String := fun _ => "generated-fresh-id"

/-- A data row with an id but no title/author: `getBooks` skips it. -/
def exBlankRow : List String := ["x1"]

/-- A complete data row with id "B2". -/
def exRow2 : List String :=
  ["B2", "i2", "T2", "A2", "t", "p", "y", "e", "c", "n", "pr", "u", "l",
   "sp", "TRUE"]

/-- The sheet of the C1 counterexample: canonical header, a blank row,
then the row with id "B2". -/
def exSheet : List (List String) := [canonHeaders, exBlankRow, exRow2]

/-- The full replacement record sent to the update, carrying id "B2". -/
def exUpd : BookInput :=
  { id := some "B2", isbn := some "i9", title := some "T9",
    author := some "A9" }

/-- Complete data rows for the id-stability witness sheet. -/
def wRowA : List String := ["A1", "xi", "TA", "AA"]

/-- The witness target row, id "B2". -/
def wRowB : List String := ["B2", "i2", "T2", "A2"]

/-- The witness trailing row, id "C3". -/
def wRowC : List String := ["C3", "xc", "T3", "A3"]

/-- The add-and-retrieve scenario record. -/
def odysseyBook : BookInput :=
  { title := some "The Odyssey", author := some "Homer",
    isbn := some "9780140449266" }

/-- The id `addBookWithId` generates for the scenario record. -/
def odysseyId (ts rand : String) : String :=
  generateBookId (orUndef odysseyBook.isbn) (orUndef odysseyBook.title)
    (orUndef odysseyBook.author) ts rand

/-! ## Search aggregator (`searchBooks` in `src/lib/sheets.ts`)

A search candidate is modeled by the fields the deduplication filter
reads (`isbn`, `title`, `author`); each catalog client outcome is an
oracle: `Except.error` when its fetch/parse threw, otherwise the list of
candidates it pushed. -/

/-- A search candidate, with the fields the dedup filter compares.
`title` can be `undefined` (a provider may omit it); `author` is always
a string (the code substitutes "Unknown Author"). -/
structure SBook where
  isbn : Option String
  title : Option String
  author : String
deriving DecidableEq, Repr, Inhabited

/-- The duplicate test of the dedup filter:
`(book.isbn && b.isbn && book.isbn === b.isbn) ||
 (book.title === b.title && book.author === b.author)`. -/
def conflictB (a b : SBook) : Bool :=
  (truthy a.isbn && truthy b.isbn && a.isbn == b.isbn) ||
  (a.title == b.title && a.author == b.author)

/-- `index === self.findIndex(...)` for position `j`: the first index
whose element conflicts with element `j` is `j` itself. -/
def keepAt (l : List SBook) (j : Nat) : Bool :=
  l.findIdx (fun b => conflictB (l.getD j default) b) == j

/-- The dedup filter of `searchBooks`: keep exactly the positions whose
first conflicting index is themselves. -/
def dedupJs (l : List SBook) : List SBook :=
  ((List.range l.length).filter (keepAt l)).map (fun j => l.getD j default)

/-- Dedup plus the `slice(0, 10)` cap, as returned by `searchBooks`. -/
def searchUnique (l : List SBook) : List SBook := (dedupJs l).take 10

/-- The query type parameter of `searchBooks`. -/
inductive QType where
  | title
  | author
  | isbn
  | general
deriving DecidableEq, Repr

/-- The source parameter of `searchBooks`. -/
inductive SrcSel where
  | google
  | openlibrary
  | all
deriving DecidableEq, Repr

/-- `source === "google" || source === "all"`. -/
def shouldSearchGoogle : SrcSel → Bool
  | .google => true
  | .all => true
  | .openlibrary => false

/-- `source === "openlibrary" || source === "all"`. -/
def shouldSearchOpenLibrary : SrcSel → Bool
  | .openlibrary => true
  | .all => true
  | .google => false

/-- Outcomes of the three catalog clients for one request. -/
structure SearchEnv where
  google : Except Unit (List SBook)
  openLib : Except Unit (List SBook)
  isbnDb : Except Unit (List SBook)
deriving Repr

/-- The ISBN-DB section of `searchBooks`: runs only for isbn-type
searches on the google/all source, and has its own inner try/catch. -/
def isbnDbPart (env : SearchEnv) (ty : QType) (src : SrcSel) :
    List SBook :=
  if shouldSearchGoogle src && ty == QType.isbn then
    match env.isbnDb with
    | .error _ => []
    | .ok ds => ds
  else []

/-- The body of the single outer try block of `searchBooks`: the google
section, then the open library section, then the ISBN-DB section. A
throw in the google or open library section aborts the rest of the
block; the outer catch keeps whatever `results` already holds. -/
def searchCollect (env : SearchEnv) (ty : QType) (src : SrcSel) :
    List SBook :=
  match (if shouldSearchGoogle src then env.google else .ok []) with
  | .error _ => []
  | .ok gs =>
    if shouldSearchOpenLibrary src && ty != QType.isbn then
      match env.openLib with
      | .error _ => gs
      | .ok os => gs ++ os ++ isbnDbPart env ty src
    else gs ++ isbnDbPart env ty src

/-- `searchBooks`: collect per the control flow above, deduplicate, cap
at 10. -/
def searchBooksM (env : SearchEnv) (ty : QType) (src : SrcSel) :
    List SBook :=
  searchUnique (searchCollect env ty src)

/-- Responses of the search route handler. -/
inductive SearchResp where
  | ok (results : List SBook) (count : Nat)
  | badRequest
deriving DecidableEq, Repr

/-- The GET handler of `src/app/api/books/search/route.ts`: reject with
400 when the `q` parameter is absent or empty, otherwise run the search
and return the results with their count. -/
def searchRoute (env : SearchEnv) (q : Option String) (ty : QType)
    (src : SrcSel) : SearchResp :=
  if !truthy q then .badRequest
  else .ok (searchBooksM env ty src) (searchBooksM env ty src).length

/-- Modelled from the spec (amended degraded-collection semantics): each
client section contributes its own list when it succeeded and the empty
list when it failed or was not enabled. -/
def degradedParts (env : SearchEnv) (ty : QType) (src : SrcSel) :
    List SBook :=
  (if shouldSearchGoogle src then
    match env.google with
    | .ok gs => gs
    | .error _ => []
  else []) ++
  (if shouldSearchOpenLibrary src && ty != QType.isbn then
    match env.openLib with
    | .ok os => os
    | .error _ => []
  else []) ++
  (if shouldSearchGoogle src && ty == QType.isbn then
    match env.isbnDb with
    | .ok ds => ds
    | .error _ => []
  else [])

/-- A candidate used by the C4 counterexample. -/
def sbX : SBook := ⟨some "i1", some "T", "A"⟩

/-- The C4 counterexample environment: the google fetch throws while
open library returns one candidate. -/
def envX : SearchEnv := ⟨.error (), .ok [sbX], .ok []⟩

/-- A second candidate sharing the non-empty ISBN of `sbX`. -/
def sbY : SBook := ⟨some "i1", some "U", "B"⟩

/-! ## forSale read/write convention -/

/-- The read-side normalization of the books GET route:
`forsale === "TRUE" || forsale === true || forsale === undefined`. -/
def readForsale (v : JsBoolStr) : Bool :=
  (v == JsBoolStr.str "TRUE") || (v == JsBoolStr.bool true) ||
    (v == JsBoolStr.absent)

/-! ## Cover image URL resolver (`getAllCoverImageUrls`) -/

/-- Uppercase hex digit. -/
def hexDigit (n : Nat) : Char :=
  if n < 10 then Char.ofNat (48 + n) else Char.ofNat (55 + n)

/-- UTF-8 bytes of a character (for percent-encoding). -/
def utf8Bytes (c : Char) : List Nat :=
  let n := c.toNat
  if n < 128 then [n]
  else if n < 2048 then
    [192 + n / 64, 128 + n % 64]
  else if n < 65536 then
    [224 + n / 4096, 128 + n / 64 % 64, 128 + n % 64]
  else
    [240 + n / 262144, 128 + n / 4096 % 64, 128 + n / 64 % 64,
     128 + n % 64]

/-- The characters JS `encodeURIComponent` leaves unescaped. -/
def uriUnreserved (c : Char) : Bool :=
  c.isAlphanum || c == '-' || c == '_' || c == '.' || c == '!' ||
    c == '~' || c == '*' || c == '\'' || c == '(' || c == ')'

/-- JS `encodeURIComponent`. -/
def encodeURIComponent (s : String) : String :=
  String.mk (s.toList.flatMap (fun c =>
    if uriUnreserved c then [c]
    else (utf8Bytes c).flatMap
      (fun b => ['%', hexDigit (b / 16), hexDigit (b % 16)])))

/-- The candidate array of `getAllCoverImageUrls` before
`filter(Boolean)`: entries are `undefined` or URL strings; the amazon
tier interpolates `convertToIsbn10`, printing `null` on failure. -/
def rawCoverList (isbn title author googleCoverUrl : Option String) :
    List (Option String) :=
  [googleCoverUrl] ++
  (if truthy isbn then
    [some ("https://covers.openlibrary.org/b/isbn/" ++ orEmpty isbn ++
      "-L.jpg"),
     some ("https://covers.openlibrary.org/b/isbn/" ++ orEmpty isbn ++
      "-M.jpg")]
  else []) ++
  (if truthy isbn && (orEmpty isbn).length == 13 then
    [some ("https://images-na.ssl-images-amazon.com/images/P/" ++
      jsStr (convertToIsbn10 (orEmpty isbn)) ++ ".01.L.jpg"),
     some ("https://images-na.ssl-images-amazon.com/images/P/" ++
      jsStr (convertToIsbn10 (orEmpty isbn)) ++ ".01.M.jpg")]
  else []) ++
  (if truthy isbn then
    [some ("https://www.worldcat.org/title/-/oclc-/covers/cover?isbn=" ++
      orEmpty isbn ++ "&size=L")]
  else []) ++
  (if truthy title && truthy author then
    [some ("https://bookcover.longitood.com/bookcover?book_title=" ++
      encodeURIComponent (orEmpty title) ++ "&author_name=" ++
      encodeURIComponent (orEmpty author) ++ "&size=large")]
  else [])

/-- `getAllCoverImageUrls` from `sheets.ts`: the candidate array with
`filter(Boolean)` applied (drops `undefined` and empty strings). -/
def getAllCoverImageUrls (isbn title author googleCoverUrl :
    Option String) : List String :=
  (rawCoverList isbn title author googleCoverUrl).filterMap
    (fun o => match o with
      | some s => if s != "" then some s else none
      | none => none)

/-- Modelled from the spec (amended): the prioritized cover URL tiers;
tier 1 is the known cover URL when truthy, tier 3 is included whenever
the ISBN is truthy with exactly 13 characters, keyed by the ISBN-10
conversion when it succeeds and the literal text `null` when it fails. -/
def coverTiersSpec (isbn title author knownCoverUrl : Option String) :
    List String :=
  (if truthy knownCoverUrl then [orEmpty knownCoverUrl] else []) ++
  (if truthy isbn then
    ["https://covers.openlibrary.org/b/isbn/" ++ orEmpty isbn ++
      "-L.jpg",
     "https://covers.openlibrary.org/b/isbn/" ++ orEmpty isbn ++
      "-M.jpg"]
  else []) ++
  (if truthy isbn && (orEmpty isbn).length == 13 then
    ["https://images-na.ssl-images-amazon.com/images/P/" ++
      jsStr (convertToIsbn10 (orEmpty isbn)) ++ ".01.L.jpg",
     "https://images-na.ssl-images-amazon.com/images/P/" ++
      jsStr (convertToIsbn10 (orEmpty isbn)) ++ ".01.M.jpg"]
  else []) ++
  (if truthy isbn then
    ["https://www.worldcat.org/title/-/oclc-/covers/cover?isbn=" ++
      orEmpty isbn ++ "&size=L"]
  else []) ++
  (if truthy title && truthy author then
    ["https://bookcover.longitood.com/bookcover?book_title=" ++
      encodeURIComponent (orEmpty title) ++ "&author_name=" ++
      encodeURIComponent (orEmpty author) ++ "&size=large"]
  else [])

/-! ## Image rehosting (`src/lib/uploadUtils.ts`)

The network and storage collaborators are one oracle environment:
`fetchImg url` is `Except.error` when the download threw, otherwise
`(response.ok, content-type header)`; `uploadFile` is `Except.error`
when the storage call threw, otherwise the optional storage URL; `now`
renders `Date.now()` for the fallback filename. -/

/-- The book metadata hint passed to `uploadBestAvailableImage`. -/
structure BookInfo where
  isbn : Option String := none
  title : Option String := none
  author : Option String := none
deriving DecidableEq, Repr

/-- A downloaded file: source URL, generated name, content type. -/
structure JsFile where
  srcUrl : String
  name : String
  ctype : String
deriving DecidableEq, Repr

/-- The oracle environment for download and upload. -/
structure UploadEnv where
  fetchImg : String → Except String (Bool × Option String)
  uploadFile : JsFile → Except String (Option String)
  now : String

/-- Split a character list on a separator (JS `String.split`). -/
def splitOnChar (sep : Char) : List Char → List (List Char)
  | [] => [[]]
  | c :: cs =>
    if c == sep then [] :: splitOnChar sep cs
    else
      match splitOnChar sep cs with
      | [] => [[c]]
      | p :: ps => (c :: p) :: ps

/-- `contentType.split("/")[1] || "jpg"`. -/
def ctypeExt (ct : String) : String :=
  match (splitOnChar '/' ct.toList).get? 1 with
  | some e => if e != [] then String.mk e else "jpg"
  | none => "jpg"

/-- `downloadImageAsFile`: fetch, require a 2xx response whose
content-type starts with `image/`, and build the file under the given
or a generated name; every failure is caught and returns `null`. -/
def downloadImageAsFile (env : UploadEnv) (imageUrl : String)
    (fileName : Option String) : Option JsFile :=
  match env.fetchImg imageUrl with
  | .error _ => none
  | .ok (ok, ct) =>
    if !ok then none
    else
      match ct with
      | none => none
      | some ctv =>
        if !jsStartsWith ctv "image/" then none
        else
          some ⟨imageUrl,
            if truthy fileName then orEmpty fileName
            else "cover-" ++ env.now ++ "." ++ ctypeExt ctv,
            ctv⟩

/-- `uploadImageFromUrl`: download then upload; a `null` download, an
upload throw, or an upload without a result URL all yield `null`. -/
def uploadImageFromUrl (env : UploadEnv) (imageUrl : String)
    (fileName : Option String) : Option String :=
  match downloadImageAsFile env imageUrl fileName with
  | none => none
  | some file =>
    match env.uploadFile file with
    | .error _ => none
    | .ok res => res

/-- The filename `uploadBestAvailableImage` derives from the book
metadata hint: isbn-keyed, else a sanitized, 50-character-capped title
slug, else `undefined`. -/
def bookFileName (bookInfo : Option BookInfo) : Option String :=
  match bookInfo with
  | none => none
  | some bi =>
    if truthy bi.isbn then some ("cover-" ++ orEmpty bi.isbn ++ ".jpg")
    else if truthy bi.title then
      some ("cover-" ++
        strTake (String.mk ((orEmpty bi.title).toList.map
          (fun c => if c.isAlphanum then c else '-'))) 50 ++ ".jpg")
    else none

/-- `uploadBestAvailableImage`: try each candidate URL in order, return
the first storage URL, `null` when every candidate fails. -/
def uploadBestAvailableImage (env : UploadEnv) (imageUrls : List String)
    (bookInfo : Option BookInfo) : Option String :=
  match imageUrls with
  | [] => none
  | u :: rest =>
    match uploadImageFromUrl env u (bookFileName bookInfo) with
    | some url => some url
    | none => uploadBestAvailableImage env rest bookInfo

/-- A concrete environment for the rehost witness: the bad URL fails to
download, everything else downloads as a jpeg and uploads fine. -/
def envUp : UploadEnv :=
  { fetchImg := fun u =>
      if u == "https://bad.example/img" then .error "network down"
      else .ok (true, some "image/jpeg"),
    uploadFile := fun _ => .ok (some "https://utfs.io/f/abc123"),
    now := "t0" }

/-! ## Theorems -/

/-- On all-digit input the checksum loop computes exactly the weighted
sum of the digit values, positions counted from the loop start. -/
theorem isbnChecksum_digits (l : List Char) (i : Nat)
    (h : ∀ c ∈ l, c.isDigit = true) :
    isbnChecksum l i = some (specWeightedSum (List.enumFrom i l)) := by
  induction l generalizing i with
  | nil => simp [isbnChecksum, specWeightedSum]
  | cons c cs ih =>
    have hc : c.isDigit = true := h c (by simp)
    have hcs : ∀ x ∈ cs, x.isDigit = true := fun x hx => h x (by simp [hx])
    rw [isbnChecksum, ih (i + 1) hcs]
    simp [parseIntDigit, hc, specWeightedSum, digitVal]

/-- C5: `convertToIsbn10` returns `null` unless the input has exactly 13
characters and starts with "978"; on conforming all-digit input it
returns the nine digits after the prefix followed by the check digit
`(11 - (sum of digit at position i times (10 - i), i in [0,9)) mod 11)
mod 11`, rendered as "X" when that value is 10 and as the digit itself
otherwise. -/
theorem c5_isbn13_to_isbn10 :
    (∀ s : String, (s.length ≠ 13 ∨ jsStartsWith s "978" = false) →
      convertToIsbn10 s = none) ∧
    (∀ s : String, s.length = 13 → jsStartsWith s "978" = true →
      (∀ c ∈ (s.toList.drop 3).take 9, c.isDigit = true) →
      convertToIsbn10 s =
        some (String.mk ((s.toList.drop 3).take 9) ++
          (if (11 - specWeightedSum
                (List.enumFrom 0 ((s.toList.drop 3).take 9)) % 11) % 11 = 10
           then "X"
           else toString ((11 - specWeightedSum
                (List.enumFrom 0 ((s.toList.drop 3).take 9)) % 11) % 11)))) := by
  constructor
  · intro s hs
    unfold convertToIsbn10
    rcases hs with h | h
    · have hb : (s.length != 13) = true := by simpa using h
      simp [hb]
    · simp [h]
  · intro s hlen hpre hdig
    unfold convertToIsbn10
    rw [if_neg (by simp [hlen, hpre])]
    simp only [isbnChecksum_digits _ 0 hdig, beq_iff_eq]

/-- Witness for C5: both branches of the conversion contract applied at
concrete inputs. -/
theorem c5_isbn13_to_isbn10_witness :
    convertToIsbn10 "12345" = none ∧
    convertToIsbn10 "9780140449266" = some "0140449264" := by
  constructor
  · exact c5_isbn13_to_isbn10.1 "12345" (Or.inl (by decide))
  · rw [c5_isbn13_to_isbn10.2 "9780140449266" (by decide) (by decide)
      (by decide)]
    decide

/-- C6 counterexample: on the literal input "9780140449266" the code
returns "0140449264" (check digit 4), not the "014044926X" stated by the
claim. -/
theorem c6_odyssey_counterexample :
    convertToIsbn10 "9780140449266" = some "0140449264" ∧
    ("0140449264" : String) ≠ "014044926X" := by
  refine ⟨by decide, by decide⟩

/-- C6 amended: `isbn13ToIsbn10` applied to the literal input
"9780140449266" returns "0140449264", a 10-character string whose own
ISBN-10 checksum recomputation matches its last character. -/
theorem c6_odyssey_conversion :
    convertToIsbn10 "9780140449266" = some "0140449264" ∧
    "0140449264".length = 10 ∧
    (if (11 - specWeightedSum
          (List.enumFrom 0 ("0140449264".toList.take 9)) % 11) % 11 = 10
     then "X"
     else toString ((11 - specWeightedSum
          (List.enumFrom 0 ("0140449264".toList.take 9)) % 11) % 11)) =
      String.mk ["0140449264".toList.getD 9 ' '] := by
  refine ⟨by decide, by decide, by decide⟩


/-! ### Record store lemmas -/

theorem objGet_canon_id (r : List String) :
    objGet (mkFields canonHeaders r) "id" = some (cellOr r 0) := rfl

theorem objGet_canon_title (r : List String) :
    objGet (mkFields canonHeaders r) "title" = some (cellOr r 2) := rfl

theorem objGet_canon_author (r : List String) :
    objGet (mkFields canonHeaders r) "author" = some (cellOr r 3) := rfl

/-- On canonical-header rows that are all kept and carry ids, the
listing loop is a plain indexed map. -/
theorem parseRows_good (gen : Nat → String) (rows : List (List String))
    (i : Nat) (h : ∀ r ∈ rows, goodRow r) :
    parseRows gen canonHeaders i rows =
      (List.enumFrom i rows).map (fun p => rowBook p.1 p.2) := by
  induction rows generalizing i with
  | nil => simp [parseRows]
  | cons r rest ih =>
    obtain ⟨h1, h2, h3⟩ := h r (by simp)
    have hrest : ∀ x ∈ rest, goodRow x := fun x hx => h x (by simp [hx])
    rw [List.enumFrom_cons, List.map_cons, parseRows]
    simp only [objGet_canon_title, objGet_canon_author, objGet_canon_id,
      h1, h2, h3, Bool.and_self, if_true, if_false, Bool.false_eq_true,
      rowBook, orEmpty, Option.getD_some]
    exact congrArg _ (ih (i + 1) hrest)

/-- Rows whose id cell is non-blank expose that cell to the strict
(`===`) comparison of the delete scan. -/
theorem get0_of_good (r : List String) (h : goodRow r) :
    r.get? 0 = some (cellOr r 0) := by
  obtain ⟨-, -, h3⟩ := h
  cases hr : r.get? 0 with
  | none =>
    exfalso
    have hc : cellOr r 0 = "" := by unfold cellOr; rw [hr]; rfl
    rw [hc] at h3
    simp [idMissing, jsTrim, trimChars] at h3
  | some v =>
    unfold cellOr
    rw [hr]
    rfl

theorem findIdx_books_pre (bookId : String) (target : List String)
    (pre post : List (List String)) (i j : Nat)
    (hpre : ∀ r ∈ pre, cellOr r 0 ≠ bookId)
    (htgt : cellOr target 0 = bookId) :
    List.findIdx? (fun b => b.id == bookId)
        ((List.enumFrom i (pre ++ target :: post)).map
          (fun p => rowBook p.1 p.2)) j =
      some (j + pre.length) := by
  induction pre generalizing i j with
  | nil =>
    simp [List.enumFrom_cons, List.findIdx?_cons, rowBook, htgt]
  | cons r rest ih =>
    have hr : cellOr r 0 ≠ bookId := hpre r (by simp)
    rw [List.cons_append, List.enumFrom_cons, List.map_cons,
      List.findIdx?_cons]
    have hb : ((rowBook i r).id == bookId) = false := by
      simp [rowBook, hr]
    rw [hb]
    simp only [Bool.false_eq_true, if_false]
    rw [ih (i + 1) (j + 1) (fun x hx => hpre x (by simp [hx]))]
    simp only [List.length_cons]
    congr 1
    omega

theorem filter_books_none (bookId : String) (l : List (List String))
    (i : Nat) (h : ∀ r ∈ l, cellOr r 0 ≠ bookId) :
    ((List.enumFrom i l).map (fun p => rowBook p.1 p.2)).filter
      (fun b => b.id == bookId) = [] := by
  induction l generalizing i with
  | nil => simp
  | cons r rest ih =>
    rw [List.enumFrom_cons, List.map_cons, List.filter_cons]
    have hb : ((rowBook i r).id == bookId) = false := by
      simp [rowBook, h r (by simp)]
    rw [hb]
    simp only [Bool.false_eq_true, if_false]
    exact ih (i + 1) (fun x hx => h x (by simp [hx]))

theorem filter_books_single (bookId : String) (newRow : List String)
    (pre post : List (List String)) (i : Nat)
    (hpre : ∀ r ∈ pre, cellOr r 0 ≠ bookId)
    (hnew : cellOr newRow 0 = bookId)
    (hpost : ∀ r ∈ post, cellOr r 0 ≠ bookId) :
    ((List.enumFrom i (pre ++ newRow :: post)).map
        (fun p => rowBook p.1 p.2)).filter (fun b => b.id == bookId) =
      [rowBook (i + pre.length) newRow] := by
  induction pre generalizing i with
  | nil =>
    rw [List.nil_append, List.enumFrom_cons, List.map_cons,
      List.filter_cons]
    have hb : ((rowBook i newRow).id == bookId) = true := by
      simp [rowBook, hnew]
    rw [hb]
    simp only [if_true]
    rw [filter_books_none bookId post (i + 1) hpost]
    simp
  | cons r rest ih =>
    rw [List.cons_append, List.enumFrom_cons, List.map_cons,
      List.filter_cons]
    have hb : ((rowBook i r).id == bookId) = false := by
      simp [rowBook, hpre r (by simp)]
    rw [hb]
    simp only [Bool.false_eq_true, if_false]
    rw [ih (i + 1) (fun x hx => hpre x (by simp [hx]))]
    simp only [List.length_cons]
    congr 2
    omega

theorem findRowIdx_spec (bookId : String) (target : List String)
    (pre post : List (List String)) (i : Nat)
    (hgood : ∀ r ∈ pre, goodRow r)
    (hpre : ∀ r ∈ pre, cellOr r 0 ≠ bookId)
    (hgt : goodRow target) (htgt : cellOr target 0 = bookId) :
    findRowIdx 0 bookId i (pre ++ target :: post) =
      some (i + pre.length) := by
  induction pre generalizing i with
  | nil =>
    rw [List.nil_append, findRowIdx, get0_of_good target hgt]
    simp [htgt]
  | cons r rest ih =>
    rw [List.cons_append, findRowIdx, get0_of_good r (hgood r (by simp))]
    have hr : cellOr r 0 ≠ bookId := hpre r (by simp)
    have hb : (some (cellOr r 0) == some bookId) = false := by simp [hr]
    rw [hb]
    simp only [Bool.false_eq_true, if_false]
    rw [ih (i + 1) (fun x hx => hgood x (by simp [hx]))
      (fun x hx => hpre x (by simp [hx]))]
    simp only [List.length_cons]
    congr 1
    omega

theorem eraseIdx_mid {α : Type} (pre post : List α) (t : α) :
    (pre ++ t :: post).eraseIdx pre.length = pre ++ post := by
  induction pre with
  | nil => simp [List.eraseIdx]
  | cons x rest ih =>
    simpa [List.eraseIdx_cons_succ] using ih

theorem ids_books (l : List (List String)) (i : Nat) :
    ((List.enumFrom i l).map (fun p => rowBook p.1 p.2)).map PBook.id =
      l.map (fun r => cellOr r 0) := by
  induction l generalizing i with
  | nil => simp
  | cons r rest ih =>
    rw [List.enumFrom_cons, List.map_cons, List.map_cons]
    exact congrArg₂ _ rfl (ih (i + 1))

theorem findIdx_books_none (bookId : String) (l : List (List String))
    (i j : Nat) (h : ∀ r ∈ l, cellOr r 0 ≠ bookId) :
    List.findIdx? (fun b => b.id == bookId)
      ((List.enumFrom i l).map (fun p => rowBook p.1 p.2)) j = none := by
  induction l generalizing i j with
  | nil => simp
  | cons r rest ih =>
    rw [List.enumFrom_cons, List.map_cons, List.findIdx?_cons]
    have hb : ((rowBook i r).id == bookId) = false := by
      simp [rowBook, h r (by simp)]
    rw [hb]
    simp only [Bool.false_eq_true, if_false]
    exact ih (i + 1) (j + 1) (fun x hx => h x (by simp [hx]))

theorem findRowIdx_none (bookId : String) (l : List (List String))
    (i : Nat) (h : ∀ r ∈ l, cellOr r 0 ≠ bookId) :
    findRowIdx 0 bookId i l = none := by
  induction l generalizing i with
  | nil => rfl
  | cons r rest ih =>
    rw [findRowIdx]
    have hb : (r.get? 0 == some bookId) = false := by
      cases hr : r.get? 0 with
      | none => rfl
      | some v =>
        have hv : cellOr r 0 = v := by unfold cellOr; rw [hr]; rfl
        have := h r (by simp)
        rw [hv] at this
        simp [this]
    rw [hb]
    simp only [Bool.false_eq_true, if_false]
    exact ih (i + 1) (fun x hx => h x (by simp [hx]))

/-- C1 counterexample: on a sheet whose second data row carries id "B2"
but whose first data row is blank (skipped by the listing), the update
aimed at "B2" overwrites the blank row, leaves the row whose id column
equals "B2" untouched, and the subsequent listing returns two records
keyed "B2" instead of the single modified record. -/
theorem c1_update_by_id_counterexample :
    updateBookById genFresh exSheet "B2" exUpd =
      .ok [canonHeaders,
        ["B2", "i9", "T9", "A9", "", "", "", "", "", "", "", "", "", "",
         "TRUE"],
        exRow2] ∧
    exRow2.get? 0 = some "B2" ∧
    (getBooksGen genFresh
        [canonHeaders,
         ["B2", "i9", "T9", "A9", "", "", "", "", "", "", "", "", "", "",
          "TRUE"],
         exRow2]).map PBook.id = ["B2", "B2"] := by
  refine ⟨rfl, rfl, rfl⟩

/-- C1 amended: on a canonical-header sheet in which every data row has
a non-blank id, title and author, and exactly one row carries the given
id, updating with a complete record carrying that id overwrites exactly
the matching row in fixed column order, a subsequent listing returns the
modified record as the unique record keyed at that id, deleting removes
exactly the matching row after which the id is gone while every other id
remains present, and both operations fail with the not-found error when
no row carries the requested id. -/
theorem c1_update_delete_by_id (gen : Nat → String)
    (pre post : List (List String)) (target : List String)
    (bookId : String) (bd : BookInput)
    (hgood : ∀ r ∈ pre ++ target :: post, goodRow r)
    (hpre : ∀ r ∈ pre, cellOr r 0 ≠ bookId)
    (htgt : cellOr target 0 = bookId)
    (hpost : ∀ r ∈ post, cellOr r 0 ≠ bookId)
    (hbdid : bd.id = some bookId)
    (hbdtitle : nonBlankStr (some (orEmpty bd.title)) = true)
    (hbdauthor : nonBlankStr (some (orEmpty bd.author)) = true) :
    updateBookById gen (canonHeaders :: (pre ++ target :: post)) bookId
        bd =
      .ok (canonHeaders ::
        (pre ++ (updateValues bd ++ target.drop 15) :: post)) ∧
    (getBooksGen gen (canonHeaders ::
        (pre ++ (updateValues bd ++ target.drop 15) :: post))).filter
        (fun b => b.id == bookId) =
      [⟨mkFields canonHeaders (updateValues bd ++ target.drop 15), bookId,
        pre.length + 2⟩] ∧
    deleteBookById (canonHeaders :: (pre ++ target :: post)) bookId =
      .ok (canonHeaders :: (pre ++ post)) ∧
    (∀ b ∈ getBooksGen gen (canonHeaders :: (pre ++ post)),
      b.id ≠ bookId) ∧
    (∀ b ∈ getBooksGen gen (canonHeaders :: (pre ++ target :: post)),
      b.id ≠ bookId →
      b.id ∈ (getBooksGen gen (canonHeaders :: (pre ++ post))).map
        PBook.id) ∧
    (∀ otherId : String,
      (∀ r ∈ pre ++ target :: post, cellOr r 0 ≠ otherId) →
      updateBookById gen (canonHeaders :: (pre ++ target :: post))
          otherId bd =
        .error ("Book with ID " ++ otherId ++ " not found") ∧
      deleteBookById (canonHeaders :: (pre ++ target :: post)) otherId =
        .error ("Book with ID " ++ otherId ++ " not found")) := by
  have hgoodtgt : goodRow target := hgood target (by simp)
  have hgoodpre : ∀ r ∈ pre, goodRow r := fun r hr => hgood r (by simp [hr])
  have hgoodpost : ∀ r ∈ post, goodRow r :=
    fun r hr => hgood r (by simp [hr])
  have hidnb : idMissing (some bookId) = false := by
    rw [← htgt]; exact hgoodtgt.2.2
  have hbooks : getBooksGen gen (canonHeaders :: (pre ++ target :: post)) =
      (List.enumFrom 0 (pre ++ target :: post)).map
        (fun p => rowBook p.1 p.2) :=
    parseRows_good gen (pre ++ target :: post) 0 hgood
  have hget : (canonHeaders :: (pre ++ target :: post)).getD
      (pre.length + 1) [] = target := by
    rw [List.getD_cons_succ, List.getD_eq_getElem?_getD,
      List.getElem?_append_right (le_refl _)]
    simp
  have hset : (canonHeaders :: (pre ++ target :: post)).set
      (pre.length + 1) (updateValues bd ++ target.drop 15) =
      canonHeaders :: (pre ++ (updateValues bd ++ target.drop 15) :: post)
      := by
    rw [List.set_cons_succ, List.set_append]
    simp
  have hub : updateBook (canonHeaders :: (pre ++ target :: post))
      (pre.length + 1) (updateValues bd) =
      canonHeaders :: (pre ++ (updateValues bd ++ target.drop 15) :: post)
      := by
    unfold updateBook setRowAt
    rw [if_pos (by simp [List.length_append])]
    rw [hget]
    rw [show (updateValues bd).length = 15 from rfl]
    exact hset
  have hupd : updateBookById gen
      (canonHeaders :: (pre ++ target :: post)) bookId bd =
      .ok (canonHeaders ::
        (pre ++ (updateValues bd ++ target.drop 15) :: post)) := by
    unfold updateBookById
    rw [hbooks, findIdx_books_pre bookId target pre post 0 0 hpre htgt]
    simp only [Nat.zero_add]
    exact congrArg Except.ok hub
  have hnew0 : cellOr (updateValues bd ++ target.drop 15) 0 = bookId := by
    rw [show cellOr (updateValues bd ++ target.drop 15) 0 = orEmpty bd.id
      from rfl, hbdid]
    rfl
  have hgoodnew : goodRow (updateValues bd ++ target.drop 15) := by
    refine ⟨hbdtitle, hbdauthor, ?_⟩
    rw [hnew0]
    exact hidnb
  have hgood2 : ∀ r ∈ pre ++ (updateValues bd ++ target.drop 15) :: post,
      goodRow r := by
    intro r hr
    rcases List.mem_append.1 hr with h | h
    · exact hgoodpre r h
    · rcases List.mem_cons.1 h with h | h
      · exact h ▸ hgoodnew
      · exact hgoodpost r h
  have hbooks2 : getBooksGen gen (canonHeaders ::
      (pre ++ (updateValues bd ++ target.drop 15) :: post)) =
      (List.enumFrom 0
        (pre ++ (updateValues bd ++ target.drop 15) :: post)).map
        (fun p => rowBook p.1 p.2) :=
    parseRows_good gen _ 0 hgood2
  have hfilter : (getBooksGen gen (canonHeaders ::
      (pre ++ (updateValues bd ++ target.drop 15) :: post))).filter
      (fun b => b.id == bookId) =
      [⟨mkFields canonHeaders (updateValues bd ++ target.drop 15), bookId,
        pre.length + 2⟩] := by
    rw [hbooks2,
      filter_books_single bookId _ pre post 0 hpre hnew0 hpost]
    simp [rowBook, hnew0]
  have hgoodrem : ∀ r ∈ pre ++ post, goodRow r := by
    intro r hr
    rcases List.mem_append.1 hr with h | h
    · exact hgoodpre r h
    · exact hgoodpost r h
  have hafter : getBooksGen gen (canonHeaders :: (pre ++ post)) =
      (List.enumFrom 0 (pre ++ post)).map (fun p => rowBook p.1 p.2) :=
    parseRows_good gen (pre ++ post) 0 hgoodrem
  have hdel : deleteBookById (canonHeaders :: (pre ++ target :: post))
      bookId = .ok (canonHeaders :: (pre ++ post)) := by
    unfold deleteBookById
    rw [if_neg (by simp)]
    split
    · next heq =>
      rw [show (((canonHeaders :: (pre ++ target :: post)).headD
          []).findIdx? (fun h => lowerStr h == "id")) = some 0 from rfl]
        at heq
      simp at heq
    · next idCol heq =>
      rw [show (((canonHeaders :: (pre ++ target :: post)).headD
          []).findIdx? (fun h => lowerStr h == "id")) = some 0 from rfl]
        at heq
      obtain rfl : (0 : Nat) = idCol := Option.some.inj heq
      split
      · next heq2 =>
        rw [show (canonHeaders :: (pre ++ target :: post)).drop 1 =
          pre ++ target :: post from rfl] at heq2
        rw [findRowIdx_spec bookId target pre post 1 hgoodpre hpre
          hgoodtgt htgt] at heq2
        simp at heq2
      · next i heq2 =>
        rw [show (canonHeaders :: (pre ++ target :: post)).drop 1 =
          pre ++ target :: post from rfl] at heq2
        rw [findRowIdx_spec bookId target pre post 1 hgoodpre hpre
          hgoodtgt htgt] at heq2
        obtain rfl : 1 + pre.length = i := Option.some.inj heq2
        congr 1
        rw [show 1 + pre.length = pre.length + 1 from by omega,
          List.eraseIdx_cons_succ, eraseIdx_mid]
  have hc4 : ∀ b ∈ getBooksGen gen (canonHeaders :: (pre ++ post)),
      b.id ≠ bookId := by
    intro b hb
    rw [hafter] at hb
    obtain ⟨p, hp, rfl⟩ := List.mem_map.1 hb
    have hsnd : p.2 ∈ pre ++ post := by
      have h2 := List.mem_map_of_mem Prod.snd hp
      rwa [List.enumFrom_map_snd] at h2
    rcases List.mem_append.1 hsnd with h | h
    · exact hpre p.2 h
    · exact hpost p.2 h
  have hc5 : ∀ b ∈ getBooksGen gen
      (canonHeaders :: (pre ++ target :: post)), b.id ≠ bookId →
      b.id ∈ (getBooksGen gen (canonHeaders :: (pre ++ post))).map
        PBook.id := by
    intro b hb hne
    rw [hbooks] at hb
    obtain ⟨p, hp, rfl⟩ := List.mem_map.1 hb
    have hsnd : p.2 ∈ pre ++ target :: post := by
      have h2 := List.mem_map_of_mem Prod.snd hp
      rwa [List.enumFrom_map_snd] at h2
    rw [hafter, ids_books]
    have hcell : (rowBook p.1 p.2).id = cellOr p.2 0 := rfl
    rw [hcell] at hne ⊢
    rcases List.mem_append.1 hsnd with h | h
    · exact List.mem_map_of_mem _ (List.mem_append_left _ h)
    · rcases List.mem_cons.1 h with h | h
      · exact absurd (h ▸ htgt) hne
      · exact List.mem_map_of_mem _ (List.mem_append_right _ h)
  have hc6 : ∀ otherId : String,
      (∀ r ∈ pre ++ target :: post, cellOr r 0 ≠ otherId) →
      updateBookById gen (canonHeaders :: (pre ++ target :: post))
          otherId bd =
        .error ("Book with ID " ++ otherId ++ " not found") ∧
      deleteBookById (canonHeaders :: (pre ++ target :: post)) otherId =
        .error ("Book with ID " ++ otherId ++ " not found") := by
    intro otherId hall
    constructor
    · unfold updateBookById
      rw [hbooks, findIdx_books_none otherId _ 0 0 hall]
    · unfold deleteBookById
      rw [if_neg (by simp)]
      split
      · next heq =>
        rw [show (((canonHeaders :: (pre ++ target :: post)).headD
            []).findIdx? (fun h => lowerStr h == "id")) = some 0 from rfl]
          at heq
        simp at heq
      · next idCol heq =>
        rw [show (((canonHeaders :: (pre ++ target :: post)).headD
            []).findIdx? (fun h => lowerStr h == "id")) = some 0 from rfl]
          at heq
        obtain rfl : (0 : Nat) = idCol := Option.some.inj heq
        split
        · next heq2 => rfl
        · next i heq2 =>
          rw [show (canonHeaders :: (pre ++ target :: post)).drop 1 =
            pre ++ target :: post from rfl] at heq2
          rw [findRowIdx_none otherId _ 1 hall] at heq2
          simp at heq2
  exact ⟨hupd, hfilter, hdel, hc4, hc5, hc6⟩

/-- Witness for the amended C1 theorem: a concrete three-row sheet;
updating and deleting id "B2" act exactly on the middle row. -/
theorem c1_update_delete_by_id_witness :
    updateBookById genFresh (canonHeaders :: ([wRowA] ++ wRowB :: [wRowC]))
        "B2" exUpd =
      .ok (canonHeaders ::
        ([wRowA] ++ (updateValues exUpd ++ wRowB.drop 15) :: [wRowC])) ∧
    deleteBookById (canonHeaders :: ([wRowA] ++ wRowB :: [wRowC])) "B2" =
      .ok (canonHeaders :: ([wRowA] ++ [wRowC])) := by
  have h := c1_update_delete_by_id genFresh [wRowA] [wRowC] wRowB "B2"
    exUpd (by decide) (by decide) (by decide) (by decide) (by decide)
    (by decide) (by decide)
  exact ⟨h.1, h.2.2.1⟩

/-! ### C2: adding a record -/

theorem dropWhile_append_last_ne {α : Type} (p : α → Bool) (xs : List α)
    (c : α) (hc : p c = false) : (xs ++ [c]).dropWhile p ≠ [] := by
  induction xs with
  | nil => simp [List.dropWhile, hc]
  | cons x rest ih =>
    rw [List.cons_append, List.dropWhile_cons]
    by_cases hx : p x = true
    · rw [if_pos hx]; exact ih
    · rw [if_neg hx]; simp

theorem trimChars_cons_ne_nil (c : Char) (l : List Char)
    (hc : c.isWhitespace = false) : trimChars (c :: l) ≠ [] := by
  unfold trimChars
  rw [List.dropWhile_cons, if_neg (by simp [hc]), List.reverse_cons]
  intro h
  rw [List.reverse_eq_nil_iff] at h
  exact dropWhile_append_last_ne _ _ _ hc h

theorem mk_ne_empty (l : List Char) (h : l ≠ []) : String.mk l ≠ "" := by
  intro hs
  exact h (congrArg String.data hs)

theorem str_append_ne_left (a b : String) (h : a ≠ "") : a ++ b ≠ "" := by
  intro hs
  apply h
  have hd := congrArg String.data hs
  rw [String.data_append] at hd
  rcases List.append_eq_nil.1 hd with ⟨h1, -⟩
  exact congrArg String.mk h1

/-- The scenario id is the digits-only ISBN followed by the timestamp
and random suffix. -/
theorem odysseyId_eq (ts rand : String) :
    odysseyId ts rand = "9780140449266" ++ "-" ++ ts ++ "-" ++ rand := rfl

theorem odysseyId_ne_empty (ts rand : String) : odysseyId ts rand ≠ "" := by
  rw [odysseyId_eq]
  exact str_append_ne_left _ _ (str_append_ne_left _ _
    (str_append_ne_left _ _ (str_append_ne_left _ _ (by decide))))

theorem odysseyId_toList (ts rand : String) :
    (odysseyId ts rand).toList =
      '9' :: ("780140449266-".toList ++ ts.toList ++ ("-".toList ++
        rand.toList)) := by
  rw [odysseyId_eq]
  show (("9780140449266" ++ "-" ++ ts ++ "-" ++ rand) : String).data = _
  simp [String.data_append]

theorem odysseyId_not_missing (ts rand : String) :
    idMissing (some (odysseyId ts rand)) = false := by
  have h1 : odysseyId ts rand ≠ "" := odysseyId_ne_empty ts rand
  have h2 : jsTrim (odysseyId ts rand) ≠ "" := by
    unfold jsTrim
    apply mk_ne_empty
    rw [odysseyId_toList]
    exact trimChars_cons_ne_nil _ _ (by decide)
  simp [idMissing, h1, h2]

theorem parseRows_append (gen : Nat → String) (hdr : List String)
    (l1 l2 : List (List String)) (i : Nat) :
    parseRows gen hdr i (l1 ++ l2) =
      parseRows gen hdr i l1 ++ parseRows gen hdr (i + l1.length) l2 := by
  induction l1 generalizing i with
  | nil => simp [parseRows]
  | cons r rest ih =>
    rw [List.cons_append, parseRows, parseRows]
    by_cases h : (nonBlankStr (objGet (mkFields hdr r) "title") &&
        nonBlankStr (objGet (mkFields hdr r) "author")) = true
    · rw [if_pos h, if_pos h, ih (i + 1), List.cons_append,
        List.length_cons, show i + (rest.length + 1) = i + 1 + rest.length
          from by omega]
    · rw [if_neg h, if_neg h, ih (i + 1), List.length_cons,
        show i + (rest.length + 1) = i + 1 + rest.length from by omega]

theorem filter_parseRows_none (gen : Nat → String) (bookId : String)
    (l : List (List String)) (i : Nat)
    (hl : ∀ r ∈ l, cellOr r 0 ≠ bookId) (hg : ∀ j, gen j ≠ bookId) :
    (parseRows gen canonHeaders i l).filter (fun b => b.id == bookId) =
      [] := by
  induction l generalizing i with
  | nil => simp [parseRows]
  | cons r rest ih =>
    rw [parseRows]
    by_cases h : (nonBlankStr (objGet (mkFields canonHeaders r) "title") &&
        nonBlankStr (objGet (mkFields canonHeaders r) "author")) = true
    · rw [if_pos h]
      rw [List.filter_cons]
      have hid : ((if idMissing (objGet (mkFields canonHeaders r) "id")
          then gen i
          else orEmpty (objGet (mkFields canonHeaders r) "id")) == bookId)
          = false := by
        rw [objGet_canon_id]
        by_cases hm : idMissing (some (cellOr r 0)) = true
        · rw [if_pos hm]
          simp [hg i]
        · rw [if_neg hm]
          simp [orEmpty, hl r (by simp)]
      rw [hid]
      simp only [Bool.false_eq_true, if_false]
      exact ih (i + 1) (fun x hx => hl x (by simp [hx]))
    · rw [if_neg h]
      exact ih (i + 1) (fun x hx => hl x (by simp [hx]))

/-- A single kept row parses to the one corresponding book object. -/
theorem parseRows_single_good (gen : Nat → String) (i : Nat)
    (r : List String)
    (h1 : nonBlankStr (some (cellOr r 2)) = true)
    (h2 : nonBlankStr (some (cellOr r 3)) = true)
    (h3 : idMissing (some (cellOr r 0)) = false) :
    parseRows gen canonHeaders i [r] =
      [⟨mkFields canonHeaders r, cellOr r 0, i + 2⟩] := by
  have h := parseRows_good gen [r] i
    (by intro x hx; simp at hx; subst hx; exact ⟨h1, h2, h3⟩)
  simpa [rowBook] using h

/-- C2: with a canonical-header sheet, `addBookWithId` on a record
without an id assigns a `generateBookId` id, appends exactly one row in
fixed column order, and returns the record with that id; for the
Odyssey scenario record the generated id is non-empty, the isbn is
preserved, and a subsequent listing contains exactly one record keyed
at the generated id. -/
theorem c2_add_record (ts rand : String) :
    (∀ (rows : List (List String)) (book : BookInput),
      truthy book.id = false →
      addBookWithId (canonHeaders :: rows) book ts rand =
        ⟨(canonHeaders :: rows) ++
          [addValues (generateBookId (orUndef book.isbn)
              (orUndef book.title) (orUndef book.author) ts rand)
            {book with id := some (generateBookId (orUndef book.isbn)
              (orUndef book.title) (orUndef book.author) ts rand)}],
         {book with id := some (generateBookId (orUndef book.isbn)
            (orUndef book.title) (orUndef book.author) ts rand)}⟩) ∧
    odysseyId ts rand ≠ "" ∧
    objGet (mkFields canonHeaders (addValues (odysseyId ts rand)
        {odysseyBook with id := some (odysseyId ts rand)})) "isbn" =
      some "9780140449266" ∧
    (∀ (gen : Nat → String) (dataRows : List (List String)),
      (∀ r ∈ dataRows, cellOr r 0 ≠ odysseyId ts rand) →
      (∀ j, gen j ≠ odysseyId ts rand) →
      (getBooksGen gen
          (addBookWithId (canonHeaders :: dataRows) odysseyBook ts
            rand).rows).filter
          (fun b => b.id == odysseyId ts rand) =
        [⟨mkFields canonHeaders (addValues (odysseyId ts rand)
            {odysseyBook with id := some (odysseyId ts rand)}),
          odysseyId ts rand, dataRows.length + 2⟩]) := by
  have hadd : ∀ (rows : List (List String)) (book : BookInput),
      truthy book.id = false →
      addBookWithId (canonHeaders :: rows) book ts rand =
        ⟨(canonHeaders :: rows) ++
          [addValues (generateBookId (orUndef book.isbn)
              (orUndef book.title) (orUndef book.author) ts rand)
            {book with id := some (generateBookId (orUndef book.isbn)
              (orUndef book.title) (orUndef book.author) ts rand)}],
         {book with id := some (generateBookId (orUndef book.isbn)
            (orUndef book.title) (orUndef book.author) ts rand)}⟩ := by
    intro rows book hid
    unfold addBookWithId
    rw [hid]
    rfl
  refine ⟨hadd, odysseyId_ne_empty ts rand, rfl, ?_⟩
  intro gen dataRows hfresh hgen
  rw [hadd dataRows odysseyBook rfl]
  show (getBooksGen gen ((canonHeaders :: dataRows) ++
      [addValues (odysseyId ts rand)
        {odysseyBook with id := some (odysseyId ts rand)}])).filter
      (fun b => b.id == odysseyId ts rand) = _
  rw [show (canonHeaders :: dataRows) ++
      [addValues (odysseyId ts rand)
        {odysseyBook with id := some (odysseyId ts rand)}] =
      canonHeaders :: (dataRows ++
        [addValues (odysseyId ts rand)
          {odysseyBook with id := some (odysseyId ts rand)}])
    from rfl]
  show (parseRows gen canonHeaders 0 (dataRows ++
      [addValues (odysseyId ts rand)
        {odysseyBook with id := some (odysseyId ts rand)}])).filter
      (fun b => b.id == odysseyId ts rand) = _
  rw [parseRows_append, List.filter_append,
    filter_parseRows_none gen _ dataRows 0 hfresh hgen]
  rw [List.nil_append, Nat.zero_add]
  rw [parseRows_single_good gen dataRows.length
    (addValues (odysseyId ts rand)
      {odysseyBook with id := some (odysseyId ts rand)}) rfl rfl
    (by exact odysseyId_not_missing ts rand)]
  have hc : cellOr (addValues (odysseyId ts rand)
      {odysseyBook with id := some (odysseyId ts rand)}) 0 =
      odysseyId ts rand := rfl
  rw [hc, List.filter_cons]
  simp

/-- Witness for C2: the scenario on an initially header-only sheet with
a concrete timestamp and random suffix. -/
theorem c2_add_record_witness :
    addBookWithId [canonHeaders] odysseyBook "mts" "rnd456" =
      ⟨[canonHeaders,
        ["9780140449266-mts-rnd456", "9780140449266", "The Odyssey",
         "Homer", "", "", "", "", "", "", "", "", "", "", "TRUE"]],
       {odysseyBook with id := some "9780140449266-mts-rnd456"}⟩ ∧
    (getBooksGen genFresh
        (addBookWithId [canonHeaders] odysseyBook "mts" "rnd456").rows).filter
        (fun b => b.id == odysseyId "mts" "rnd456") =
      [⟨mkFields canonHeaders (addValues (odysseyId "mts" "rnd456")
          {odysseyBook with id := some (odysseyId "mts" "rnd456")}),
        odysseyId "mts" "rnd456", 2⟩] := by
  have h := c2_add_record "mts" "rnd456"
  constructor
  · have h1 := h.1 [] odysseyBook rfl
    rw [h1]
    rfl
  · have h4 := h.2.2.2 genFresh [] (by simp)
      (fun _ => by
        show ("generated-fresh-id" : String) ≠ odysseyId "mts" "rnd456"
        decide)
    simpa using h4

/-! ### C8/C9: the forSale convention -/

/-- C8 counterexample: an empty-string `forsale` value (what a present
forsale column with a blank cell reads as) is normalized to
effective-false although it is neither the string "FALSE" nor boolean
false. -/
theorem c8_forsale_counterexample :
    readForsale (JsBoolStr.str "") = false ∧
    JsBoolStr.str "" ≠ JsBoolStr.str "FALSE" ∧
    JsBoolStr.str "" ≠ JsBoolStr.bool false := by
  refine ⟨by decide, by decide, by decide⟩

/-- C8 amended: `forSale` is persisted only as the literal strings
"TRUE"/"FALSE"; on read, "TRUE", boolean true and field-absent normalize
to effective-true, while "FALSE", boolean false and every other string
value (including the empty string) normalize to effective-false. -/
theorem c8_forsale_normalization :
    (∀ v : JsBoolStr, forsaleCell v = "TRUE" ∨ forsaleCell v = "FALSE") ∧
    readForsale (JsBoolStr.str "TRUE") = true ∧
    readForsale (JsBoolStr.bool true) = true ∧
    readForsale JsBoolStr.absent = true ∧
    readForsale (JsBoolStr.str "FALSE") = false ∧
    readForsale (JsBoolStr.bool false) = false ∧
    (∀ s : String, s ≠ "TRUE" → readForsale (JsBoolStr.str s) = false) := by
  refine ⟨?_, by decide, by decide, by decide, by decide, by decide, ?_⟩
  · intro v
    cases v with
    | absent => exact Or.inl rfl
    | str s => exact Or.inl rfl
    | bool b =>
      cases b with
      | false => exact Or.inr rfl
      | true => exact Or.inl rfl
  · intro s hs
    simp [readForsale, hs]

/-- Witness for the amended C8 theorem: the write side at a string
value, and the read side at the non-normalized string "yes". -/
theorem c8_forsale_normalization_witness :
    (forsaleCell (JsBoolStr.str "FALSE") = "TRUE" ∨
      forsaleCell (JsBoolStr.str "FALSE") = "FALSE") ∧
    readForsale (JsBoolStr.str "yes") = false := by
  exact ⟨c8_forsale_normalization.1 (JsBoolStr.str "FALSE"),
    c8_forsale_normalization.2.2.2.2.2.2 "yes" (by decide)⟩

/-- C9: both writers persist "FALSE" in the forsale column exactly when
the incoming field is boolean false; every other value — including the
string "FALSE" that a read of a stored row produces — is written as
"TRUE", so a read-then-write round trip of a "FALSE" row persists
"TRUE". -/
theorem c9_forsale_write (b : BookInput) (theId : String) :
    ((updateValues b).get? 14 = some "FALSE" ↔
      b.forsale = JsBoolStr.bool false) ∧
    ((addValues theId b).get? 14 = some "FALSE" ↔
      b.forsale = JsBoolStr.bool false) ∧
    (b.forsale = JsBoolStr.str "FALSE" →
      (updateValues b).get? 14 = some "TRUE" ∧
      (addValues theId b).get? 14 = some "TRUE") := by
  have hu : (updateValues b).get? 14 = some (forsaleCell b.forsale) := rfl
  have ha : (addValues theId b).get? 14 = some (forsaleCell b.forsale) :=
    rfl
  have hiff : forsaleCell b.forsale = "FALSE" ↔
      b.forsale = JsBoolStr.bool false := by
    cases hb : b.forsale with
    | absent => simp [forsaleCell]
    | str s => simp [forsaleCell]
    | bool bb => cases bb <;> simp [forsaleCell]
  refine ⟨?_, ?_, ?_⟩
  · rw [hu]
    simpa using hiff
  · rw [ha]
    simpa using hiff
  · intro hsf
    rw [hu, ha, hsf]
    exact ⟨rfl, rfl⟩

/-- Witness for C9: a record read back with the string "FALSE" is
re-persisted as "TRUE". -/
theorem c9_forsale_write_witness :
    ({ forsale := JsBoolStr.str "FALSE" } : BookInput).forsale =
      JsBoolStr.str "FALSE" ∧
    (updateValues { forsale := JsBoolStr.str "FALSE" }).get? 14 =
      some "TRUE" := by
  exact ⟨rfl,
    ((c9_forsale_write { forsale := JsBoolStr.str "FALSE" } "x").2.2
      rfl).1⟩

/-! ### C3: deduplication invariants -/

theorem conflictB_true_comm (a b : SBook) :
    conflictB a b = true → conflictB b a = true := by
  simp only [conflictB, Bool.or_eq_true, Bool.and_eq_true, beq_iff_eq]
  rintro (⟨⟨h1, h2⟩, h3⟩ | ⟨h1, h2⟩)
  · exact Or.inl ⟨⟨h2, h1⟩, h3.symm⟩
  · exact Or.inr ⟨h1.symm, h2.symm⟩

theorem conflictB_symm (a b : SBook) : conflictB a b = conflictB b a := by
  cases h1 : conflictB a b with
  | true => exact (conflictB_true_comm a b h1).symm
  | false =>
    cases h2 : conflictB b a with
    | true => rw [conflictB_true_comm b a h2] at h1; exact h1.symm
    | false => rfl

theorem findIdx_le_of_true (p : SBook → Bool) (l : List SBook) (i : Nat)
    (hi : i < l.length) (hp : p (l.get ⟨i, hi⟩) = true) :
    l.findIdx p ≤ i := by
  by_contra hc
  push_neg at hc
  have hfalse := List.not_of_lt_findIdx hc
  rw [List.get_eq_getElem] at hp
  rw [hp] at hfalse
  exact Bool.noConfusion hfalse

/-- A kept position conflicts with no earlier position. -/
theorem kept_no_earlier (l : List SBook) (j : Nat) (hj : j < l.length)
    (hk : keepAt l j = true) (i : Nat) (hij : i < j) :
    conflictB (l.getD j default) (l.getD i default) = false := by
  have hfi : l.findIdx (fun b => conflictB (l.getD j default) b) = j := by
    simpa [keepAt] using hk
  have hlt : i < l.findIdx (fun b => conflictB (l.getD j default) b) := by
    rw [hfi]
    exact hij
  have hfalse := List.not_of_lt_findIdx hlt
  rwa [List.getD_eq_getElem l default (hij.trans hj)]

/-- The kept elements are pairwise non-conflicting. -/
theorem dedupJs_pairwise (l : List SBook) :
    List.Pairwise (fun a b => conflictB a b = false) (dedupJs l) := by
  unfold dedupJs
  rw [List.pairwise_map]
  refine List.Pairwise.imp_of_mem ?_
    ((List.pairwise_lt_range l.length).filter (keepAt l))
  intro j1 j2 h1 h2 hlt
  have hj2 : j2 < l.length := List.mem_range.1 (List.mem_filter.1 h2).1
  have hk2 : keepAt l j2 = true := (List.mem_filter.1 h2).2
  rw [conflictB_symm]
  exact kept_no_earlier l j2 hj2 hk2 j1 hlt

/-- C3: the deduplicated search results are capped at 10, no two share
a non-empty ISBN, no two share an identical (title, author) pair, and
of any conflicting pair of candidate positions only the earlier one can
be kept. -/
theorem c3_dedup_invariants (l : List SBook) :
    (searchUnique l).length ≤ 10 ∧
    List.Pairwise (fun a b =>
      ¬(truthy a.isbn = true ∧ truthy b.isbn = true ∧ a.isbn = b.isbn))
      (searchUnique l) ∧
    List.Pairwise (fun a b =>
      ¬(a.title = b.title ∧ a.author = b.author)) (searchUnique l) ∧
    (∀ i j : Nat, i < j → j < l.length →
      conflictB (l.getD i default) (l.getD j default) = true →
      keepAt l j = false) := by
  have hpair : List.Pairwise (fun a b => conflictB a b = false)
      (searchUnique l) :=
    List.Pairwise.sublist (List.take_sublist 10 _) (dedupJs_pairwise l)
  refine ⟨List.length_take_le _ _, ?_, ?_, ?_⟩
  · refine hpair.imp ?_
    intro a b hconf hx
    obtain ⟨h1, h2, h3⟩ := hx
    simp only [conflictB] at hconf
    rw [h3] at hconf
    simp [h1, h2] at hconf
  · refine hpair.imp ?_
    intro a b hconf hx
    obtain ⟨h1, h2⟩ := hx
    simp only [conflictB] at hconf
    rw [h1, h2] at hconf
    simp at hconf
  · intro i j hij hj hconf
    have hi : i < l.length := hij.trans hj
    have hp : conflictB (l.getD j default) (l.get ⟨i, hi⟩) = true := by
      rw [List.get_eq_getElem, ← List.getD_eq_getElem l default hi]
      exact conflictB_true_comm _ _ hconf
    have hle := findIdx_le_of_true
      (fun b => conflictB (l.getD j default) b) l i hi hp
    have hne : l.findIdx (fun b => conflictB (l.getD j default) b) ≠ j :=
      Nat.ne_of_lt (lt_of_le_of_lt hle hij)
    simpa [keepAt] using hne

/-- Witness for C3: two candidates sharing the non-empty ISBN "i1"; the
later one is not kept. -/
theorem c3_dedup_invariants_witness : keepAt [sbX, sbY] 1 = false := by
  exact (c3_dedup_invariants [sbX, sbY]).2.2.2 0 1 (by decide) (by decide)
    (by decide)

/-! ### C4: aggregate search error policy -/

/-- C4 counterexample: with the google fetch throwing and open library
returning one candidate, the all-sources general search returns the
empty list — the surviving open library candidate is dropped because
the throw aborts the shared try block before the open library call. -/
theorem c4_isolation_counterexample :
    searchBooksM envX QType.general SrcSel.all = [] ∧
    envX.openLib = .ok [sbX] ∧
    sbX ∉ searchBooksM envX QType.general SrcSel.all := by
  refine ⟨rfl, rfl, ?_⟩
  have h1 : searchBooksM envX QType.general SrcSel.all = [] := rfl
  rw [h1]
  exact List.not_mem_nil sbX

/-- C4 amended: the search route rejects with 400 exactly when the
query is absent or empty; when the google section does not throw (or is
not enabled) every enabled client degrades independently, a failing
client contributing an empty list; but when the enabled google section
throws, the whole collection aborts and the search returns the empty
list, dropping the open library results. -/
theorem c4_error_isolation :
    (∀ (env : SearchEnv) (q : Option String) (ty : QType) (src : SrcSel),
      searchRoute env q ty src = SearchResp.badRequest ↔
        (q = none ∨ q = some "")) ∧
    (∀ (env : SearchEnv) (ty : QType) (src : SrcSel),
      env.google = .error () → shouldSearchGoogle src = true →
      searchBooksM env ty src = []) ∧
    (∀ (env : SearchEnv) (ty : QType) (src : SrcSel),
      (env.google = .error () → shouldSearchGoogle src = false) →
      searchBooksM env ty src = searchUnique (degradedParts env ty src))
    := by
  refine ⟨?_, ?_, ?_⟩
  · intro env q ty src
    constructor
    · intro h
      cases q with
      | none => exact Or.inl rfl
      | some s =>
        by_cases hs : s = ""
        · exact Or.inr (by rw [hs])
        · exfalso
          have ht : truthy (some s) = true := by simp [truthy, hs]
          unfold searchRoute at h
          rw [ht] at h
          simp at h
    · intro h
      rcases h with h | h <;> rw [h] <;> rfl
  · intro env ty src hg hs
    unfold searchBooksM searchCollect
    rw [hs, hg]
    rfl
  · intro env ty src himp
    rcases henv : env.google with e | gs
    · cases e
      have hs : shouldSearchGoogle src = false := himp henv
      rcases hol : env.openLib with olE | os <;> cases src <;> cases ty <;>
        first
          | exact absurd hs (by decide)
          | simp [searchBooksM, searchCollect, degradedParts, isbnDbPart,
              henv, hol, shouldSearchGoogle, shouldSearchOpenLibrary]
    · rcases hol : env.openLib with olE | os <;>
        rcases hdb : env.isbnDb with dbE | ds <;>
        cases src <;> cases ty <;>
        simp [searchBooksM, searchCollect, degradedParts, isbnDbPart,
          henv, hol, hdb, shouldSearchGoogle, shouldSearchOpenLibrary]

/-- Witness for the amended C4 theorem: the 400 rejection on a missing
query, the google-throw wipe-out, and a per-client degraded collection
with all clients succeeding. -/
theorem c4_error_isolation_witness :
    searchRoute envX none QType.general SrcSel.all =
      SearchResp.badRequest ∧
    searchBooksM envX QType.general SrcSel.all = [] ∧
    searchBooksM ⟨.ok [sbX], .ok [sbY], .ok []⟩ QType.general
        SrcSel.all =
      searchUnique (degradedParts ⟨.ok [sbX], .ok [sbY], .ok []⟩
        QType.general SrcSel.all) := by
  refine ⟨?_, ?_, ?_⟩
  · exact (c4_error_isolation.1 envX none QType.general SrcSel.all).2
      (Or.inl rfl)
  · exact c4_error_isolation.2.1 envX QType.general SrcSel.all rfl rfl
  · exact c4_error_isolation.2.2 ⟨.ok [sbX], .ok [sbY], .ok []⟩
      QType.general SrcSel.all (fun h => Except.noConfusion h)

/-! ### C7: cover image URL enumeration -/

/-- C7 counterexample: for a 13-character ISBN not starting with "978"
the ISBN-13 to ISBN-10 conversion fails, yet the alternate-provider
tier is still emitted, with the literal text "null" interpolated into
the URL. -/
theorem c7_cover_urls_counterexample :
    convertToIsbn10 "9791234567890" = none ∧
    "https://images-na.ssl-images-amazon.com/images/P/null.01.L.jpg" ∈
      getAllCoverImageUrls (some "9791234567890") none none none := by
  refine ⟨by decide, by decide⟩

theorem filterMap_bool_first (gcu : Option String) :
    List.filterMap
      (fun o => match o with
        | some s => if s != "" then some s else none
        | none => none) [gcu] =
      (if truthy gcu then [orEmpty gcu] else []) := by
  cases gcu with
  | none => simp [truthy]
  | some s => by_cases hs : s = "" <;> simp [truthy, orEmpty, hs]

theorem filterMap_bool_pair (P : Prop) [Decidable P] (u v : String)
    (hu : u ≠ "") (hv : v ≠ "") :
    List.filterMap
      (fun o => match o with
        | some s => if s != "" then some s else none
        | none => none) (if P then [some u, some v] else []) =
      (if P then [u, v] else []) := by
  by_cases h : P <;> simp [h, hu, hv]

theorem filterMap_bool_single (P : Prop) [Decidable P] (u : String)
    (hu : u ≠ "") :
    List.filterMap
      (fun o => match o with
        | some s => if s != "" then some s else none
        | none => none) (if P then [some u] else []) =
      (if P then [u] else []) := by
  by_cases h : P <;> simp [h, hu]

/-- C7 amended: the enumerated cover URLs are exactly the prioritized
tiers in order — known cover URL when truthy, ISBN-keyed cover-CDN
large then medium, alternate-provider URLs whenever the ISBN is truthy
with exactly 13 characters (keyed by the ISBN-10 conversion when it
succeeds and by the literal text "null" when it fails), the
library-catalog URL, and the title+author lookup URL only when both are
present; empty or undefined inputs skip their tier. -/
theorem c7_cover_urls (isbn title author gcu : Option String) :
    getAllCoverImageUrls isbn title author gcu =
      coverTiersSpec isbn title author gcu := by
  have hol1 : ("https://covers.openlibrary.org/b/isbn/" ++ orEmpty isbn
      ++ "-L.jpg") ≠ "" :=
    str_append_ne_left _ _ (str_append_ne_left _ _ (by decide))
  have hol2 : ("https://covers.openlibrary.org/b/isbn/" ++ orEmpty isbn
      ++ "-M.jpg") ≠ "" :=
    str_append_ne_left _ _ (str_append_ne_left _ _ (by decide))
  have hamz1 : ("https://images-na.ssl-images-amazon.com/images/P/" ++
      jsStr (convertToIsbn10 (orEmpty isbn)) ++ ".01.L.jpg") ≠ "" :=
    str_append_ne_left _ _ (str_append_ne_left _ _ (by decide))
  have hamz2 : ("https://images-na.ssl-images-amazon.com/images/P/" ++
      jsStr (convertToIsbn10 (orEmpty isbn)) ++ ".01.M.jpg") ≠ "" :=
    str_append_ne_left _ _ (str_append_ne_left _ _ (by decide))
  have hwc : ("https://www.worldcat.org/title/-/oclc-/covers/cover?isbn="
      ++ orEmpty isbn ++ "&size=L") ≠ "" :=
    str_append_ne_left _ _ (str_append_ne_left _ _ (by decide))
  have hbc : ("https://bookcover.longitood.com/bookcover?book_title=" ++
      encodeURIComponent (orEmpty title) ++ "&author_name=" ++
      encodeURIComponent (orEmpty author) ++ "&size=large") ≠ "" :=
    str_append_ne_left _ _ (str_append_ne_left _ _
      (str_append_ne_left _ _ (str_append_ne_left _ _ (by decide))))
  unfold getAllCoverImageUrls rawCoverList coverTiersSpec
  rw [List.filterMap_append, List.filterMap_append,
    List.filterMap_append, List.filterMap_append,
    filterMap_bool_first gcu,
    filterMap_bool_pair _ _ _ hol1 hol2,
    filterMap_bool_pair _ _ _ hamz1 hamz2,
    filterMap_bool_single _ _ hwc,
    filterMap_bool_single _ _ hbc]

/-! ### C10: rehost fallback chain -/

/-- C10: the rehoster tries the candidates strictly in order and
returns the first per-candidate success (`findSome?` semantics), so the
empty list yields `null` and per-candidate failures are absorbed; in
particular with a bad URL whose download throws followed by a good
image URL whose upload succeeds, it returns the storage URL of the good
candidate. -/
theorem c10_rehost_fallback (env : UploadEnv) (bi : Option BookInfo)
    (urls : List String) :
    uploadBestAvailableImage env urls bi =
      urls.findSome? (fun u => uploadImageFromUrl env u (bookFileName bi))
    ∧
    uploadBestAvailableImage env [] bi = none ∧
    (∀ (env2 : UploadEnv) (bad good s e : String),
      env2.fetchImg bad = .error e →
      env2.fetchImg good = .ok (true, some "image/jpeg") →
      (∀ f : JsFile, env2.uploadFile f = .ok (some s)) →
      uploadBestAvailableImage env2 [bad, good] bi = some s) := by
  refine ⟨?_, rfl, ?_⟩
  · induction urls with
    | nil => rfl
    | cons u rest ih =>
      rw [uploadBestAvailableImage, List.findSome?_cons]
      cases h : uploadImageFromUrl env u (bookFileName bi) with
      | none => exact ih
      | some url => rfl
  · intro env2 bad good s e hbad hgood hup
    simp only [uploadBestAvailableImage, uploadImageFromUrl,
      downloadImageAsFile, hbad, hgood, hup]
    rfl

/-- Witness for C10: the two-candidate fallback scenario on a concrete
environment. -/
theorem c10_rehost_fallback_witness :
    uploadBestAvailableImage envUp
        ["https://bad.example/img", "https://good.example/img"]
        (some { isbn := some "9780140449266" }) =
      some "https://utfs.io/f/abc123" := by
  exact (c10_rehost_fallback envUp (some { isbn := some "9780140449266" })
      []).2.2 envUp "https://bad.example/img" "https://good.example/img"
    "https://utfs.io/f/abc123" "network down" rfl rfl (fun f => rfl)

end BookLib
